import Mathlib

/-!
Verification of the EC4 composite-column capacity module
(`chi_coeff` and `composite_HE_ec4` in `Composite_HE_EC4.py`).

The buckling-curve evaluator works with square roots, so it is embedded
over the real numbers; `x ** 0.5` is modelled by `Real.sqrt`.  (For a
negative base Python's `**` returns a complex number while `Real.sqrt`
returns `0`; wherever that matters the sign of the radicand is stated
explicitly.)  The interaction-diagram quantities of `composite_HE_ec4`
involve only field operations, so they are embedded over `ℚ`, one
definition per assignment of the source; the two irrational quantities
(`N_cr`, which contains `pi ** 2`, and `lambda_k`, a square root) live
in `ℝ` on top of the rational layer.
-/

/-- Error raised by `chi_coeff` for an unrecognized buckling curve
(`raise ValueError(...)`, line 24 of the source). -/
inductive ChiError where
  | invalidCurve : ChiError

/-- The `lines` dictionary of `chi_coeff` (source lines 16-21): curve
symbol to `(alpha, lambda_1)`; `none` for symbols outside the table. -/
def lines : Char → Option (ℝ × ℝ)
  | 'a' => some (0.21, 1.0)
  | 'b' => some (0.34, 1.0)
  | 'c' => some (0.49, 1.0)
  | 'd' => some (0.76, 1.0)
  | _ => none

/-- `phi = 0.5 * (1 + alpha * (bar_lambda - 0.2) + bar_lambda**2)`
(source line 29). -/
noncomputable def chiPhi (alpha bar_lambda : ℝ) : ℝ :=
  0.5 * (1 + alpha * (bar_lambda - 0.2) + bar_lambda ^ 2)

/-- Denominator of line 30: `phi + (phi**2 - bar_lambda**2)**0.5`. -/
noncomputable def chiDen (alpha bar_lambda : ℝ) : ℝ :=
  chiPhi alpha bar_lambda +
    Real.sqrt (chiPhi alpha bar_lambda ^ 2 - bar_lambda ^ 2)

/-- `chi = 1 / (phi + (phi**2 - bar_lambda**2)**0.5)` (source line 30). -/
noncomputable def chiVal (alpha bar_lambda : ℝ) : ℝ :=
  1 / chiDen alpha bar_lambda

/-- `chi_coeff` (source lines 5-32): look the curve up in `lines`,
raise on a miss, otherwise `bar_lambda = lambda_value / lambda_1` and
return `chi`. -/
noncomputable def chi_coeff (lambda_value : ℝ) (line_type : Char) :
    Except ChiError ℝ :=
  match lines line_type with
  | none => Except.error ChiError.invalidCurve
  | some (alpha, lambda_1) => Except.ok (chiVal alpha (lambda_value / lambda_1))

/- ### Rational layer of `composite_HE_ec4` (source lines 52-124) -/

/-- Safety factor for steel (line 53). -/
def gamma_M : ℚ := 1.0

/-- Safety factor for concrete (line 54). -/
def gamma_C : ℚ := 1.5

/-- Safety factor for reinforcement steel (line 55). -/
def gamma_B : ℚ := 1.15

/-- `fyd = fy / gamma_M` (line 57). -/
def fyd (fy : ℚ) : ℚ := fy / gamma_M

/-- `fcd = 0.85 * fc / gamma_C` (line 58). -/
def fcd (fc : ℚ) : ℚ := 0.85 * fc / gamma_C

/-- `fsd = fs / gamma_B` (line 59). -/
def fsd (fs : ℚ) : ℚ := fs / gamma_B

/-- `E_sm = Es * 1e3` (line 61). -/
def E_sm (Es : ℚ) : ℚ := Es * 1e3

/-- `E_cm = Ec * 1e3` (line 62). -/
def E_cm (Ec : ℚ) : ℚ := Ec * 1e3

/-- Concrete creep coefficient `phi_t = 2.5` (line 63). -/
def phi_t : ℚ := 2.5

/-- Total applied axial load `N_ed = 2200e3` (line 66). -/
def N_ed : ℚ := 2200e3

/-- Dead load `N_gd = 1400e3` (line 67). -/
def N_gd : ℚ := 1400e3

/-- `b_c = b / 1000` (line 70). -/
def b_c (b : ℚ) : ℚ := b / 1000

/-- `h_c = h / 1000` (line 71). -/
def h_c (h : ℚ) : ℚ := h / 1000

/-- `I_s = I_st / 1e8` (line 72). -/
def I_s (I_st : ℚ) : ℚ := I_st / 1e8

/-- `I_b = I_by / 1e8` (line 73). -/
def I_b (I_by : ℚ) : ℚ := I_by / 1e8

/-- `I_c = (1/12) * b_c * h_c**3 - I_s - I_b` (line 74). -/
def I_c (b h I_st I_by : ℚ) : ℚ :=
  1 / 12 * b_c b * h_c h ^ 3 - I_s I_st - I_b I_by

/-- `Ec_eff = E_cm / (1 + (N_gd / N_ed) * phi_t)` (line 76). -/
def Ec_eff (Ec : ℚ) : ℚ := E_cm Ec / (1 + N_gd / N_ed * phi_t)

/-- `EI_eff = E_sm * I_s + 0.6 * Ec_eff * I_c + I_b * 200e3` (line 78). -/
def EI_eff (b h I_st I_by Ec Es : ℚ) : ℚ :=
  E_sm Es * I_s I_st + 0.6 * Ec_eff Ec * I_c b h I_st I_by + I_b I_by * 200e3

/-- `N_cr = EI_eff * math.pi**2 / L**2` (line 79). -/
noncomputable def N_cr (L b h I_st I_by Ec Es : ℚ) : ℝ :=
  (EI_eff b h I_st I_by Ec Es : ℝ) * Real.pi ^ 2 / (L : ℝ) ^ 2

/-- Reassignment `A_st = A_st / 1e4` (line 80). -/
def A_st_m (A_st : ℚ) : ℚ := A_st / 1e4

/-- Reassignment `As_b = As_b / 1e4` (line 81). -/
def As_b_m (As_b : ℚ) : ℚ := As_b / 1e4

/-- `A_c = (b_c * h_c) - (A_st + As_b)` (line 82). -/
def A_c (b h A_st As_b : ℚ) : ℚ :=
  b_c b * h_c h - (A_st_m A_st + As_b_m As_b)

/-- `Npl_rk = fy * A_st + fsd * As_b + fc * A_c` (line 85). -/
def Npl_rk (b h A_st As_b fy fc fs : ℚ) : ℚ :=
  fy * A_st_m A_st + fsd fs * As_b_m As_b + fc * A_c b h A_st As_b

/-- `Npl_rd = fyd * A_st + fsd * As_b + fcd * A_c` (line 86). -/
def Npl_rd (b h A_st As_b fy fc fs : ℚ) : ℚ :=
  fyd fy * A_st_m A_st + fsd fs * As_b_m As_b + fcd fc * A_c b h A_st As_b

/-- `lambda_k = math.sqrt(Npl_rk / N_cr)` (line 89). -/
noncomputable def lambda_k (L b h A_st I_st As_b I_by fy fc fs Ec Es : ℚ) : ℝ :=
  Real.sqrt ((Npl_rk b h A_st As_b fy fc fs : ℝ) / N_cr L b h I_st I_by Ec Es)

/-- HE profile web thickness `t_w = 1 / 100` (line 93). -/
def t_w : ℚ := 1 / 100

/-- `h_n = A_c / (2 * (b_c - t_w + (2 * t_w * (fyd / (0.85 * fcd)))))`
(line 94). -/
def h_n (b h A_st As_b fy fc : ℚ) : ℚ :=
  A_c b h A_st As_b /
    (2 * (b_c b - t_w + 2 * t_w * (fyd fy / (0.85 * fcd fc))))

/-- HE profile plastic section modulus `W_pla = 1283 * 1e-6` (line 96). -/
def W_pla : ℚ := 1283 * 1e-6

/-- Reinforcement plastic section modulus `W_pls = 40 * 1e-6` (line 97). -/
def W_pls : ℚ := 40 * 1e-6

/-- `W_plc = (b_c * h_c**2) / 4 - W_pla - W_pls` (line 98). -/
def W_plc (b h : ℚ) : ℚ := b_c b * h_c h ^ 2 / 4 - W_pla - W_pls

/-- `M_max_rd = W_pla * fyd + 0.5 * W_plc * fcd + W_pls * fsd` (line 101). -/
def M_max_rd (b h fy fc fs : ℚ) : ℚ :=
  W_pla * fyd fy + 0.5 * W_plc b h * fcd fc + W_pls * fsd fs

/-- `N_d_rd = 0.5 * A_c * fcd` (line 102). -/
def N_d_rd (b h A_st As_b fc : ℚ) : ℚ := 0.5 * A_c b h A_st As_b * fcd fc

/-- `M_b_rd = M_max_rd - (2 * h_n**2 * t_w / 6 * fsd)
- (2 * h_n**2 * (b_c - t_w) / 6) * fcd` (line 105). -/
def M_b_rd (b h A_st As_b fy fc fs : ℚ) : ℚ :=
  M_max_rd b h fy fc fs - 2 * h_n b h A_st As_b fy fc ^ 2 * t_w / 6 * fsd fs -
    2 * h_n b h A_st As_b fy fc ^ 2 * (b_c b - t_w) / 6 * fcd fc

/-- `M_c_rd = M_b_rd` (line 106). -/
def M_c_rd (b h A_st As_b fy fc fs : ℚ) : ℚ := M_b_rd b h A_st As_b fy fc fs

/-- `N_b_rd = A_c * fcd` (line 107). -/
def N_b_rd (b h A_st As_b fc : ℚ) : ℚ := A_c b h A_st As_b * fcd fc

/-- Plotted point `"A": (0, Npl_rd * 1e3)` (line 120). -/
def ptA (b h A_st As_b fy fc fs : ℚ) : ℚ × ℚ :=
  (0, Npl_rd b h A_st As_b fy fc fs * 1e3)

/-- Plotted point `"B": (M_b_rd * 1e3, N_b_rd * 1e3)` (line 121). -/
def ptB (b h A_st As_b fy fc fs : ℚ) : ℚ × ℚ :=
  (M_b_rd b h A_st As_b fy fc fs * 1e3, N_b_rd b h A_st As_b fc * 1e3)

/-- Plotted point `"D": (M_max_rd * 1e3, N_d_rd * 1e3)` (line 122). -/
def ptD (b h A_st As_b fy fc fs : ℚ) : ℚ × ℚ :=
  (M_max_rd b h fy fc fs * 1e3, N_d_rd b h A_st As_b fc * 1e3)

/-- Plotted point `"C": (M_c_rd * 1e3, 0)` (line 123). -/
def ptC (b h A_st As_b fy fc fs : ℚ) : ℚ × ℚ :=
  (M_c_rd b h A_st As_b fy fc fs * 1e3, 0)

/-- The outputs of one `composite_HE_ec4` call: the printed quantities
(lines 112-116) and the four plotted vertices (lines 119-124). -/
structure CompositeOutputs where
  out_N_cr : ℝ
  out_Npl_rd : ℚ
  out_M_max_rd : ℚ
  out_M_b_rd : ℚ
  out_ptA : ℚ × ℚ
  out_ptB : ℚ × ℚ
  out_ptD : ℚ × ℚ
  out_ptC : ℚ × ℚ

/-- Full state of one `composite_HE_ec4` call: the outputs together with
the slenderness and the buckling reduction factor of lines 89-90. -/
structure CompositeResult extends CompositeOutputs where
  res_lambda_k : ℝ
  res_chi : Except ChiError ℝ

/-- `composite_HE_ec4` (source lines 34-148): every computed quantity of
the source, gathered in one record; `chi = chi_coeff(lambda_k, "c")`
(line 90). -/
noncomputable def composite_HE_ec4 (L b h A_st I_st As_b I_by fy fc fs Ec Es : ℚ) :
    CompositeResult where
  out_N_cr := N_cr L b h I_st I_by Ec Es
  out_Npl_rd := Npl_rd b h A_st As_b fy fc fs
  out_M_max_rd := M_max_rd b h fy fc fs
  out_M_b_rd := M_b_rd b h A_st As_b fy fc fs
  out_ptA := ptA b h A_st As_b fy fc fs
  out_ptB := ptB b h A_st As_b fy fc fs
  out_ptD := ptD b h A_st As_b fy fc fs
  out_ptC := ptC b h A_st As_b fy fc fs
  res_lambda_k := lambda_k L b h A_st I_st As_b I_by fy fc fs Ec Es
  res_chi := chi_coeff (lambda_k L b h A_st I_st As_b I_by fy fc fs Ec Es) 'c'

/-- Modelled from the spec: `composite_HE_ec4` "with the `chi_coeff`
call removed" (claim C9) - the same output computation, with the
slenderness/reduction-factor steps of lines 89-90 absent. -/
noncomputable def composite_HE_ec4_without_chi
    (L b h A_st I_st As_b I_by fy fc fs Ec Es : ℚ) : CompositeOutputs where
  out_N_cr := N_cr L b h I_st I_by Ec Es
  out_Npl_rd := Npl_rd b h A_st As_b fy fc fs
  out_M_max_rd := M_max_rd b h fy fc fs
  out_M_b_rd := M_b_rd b h A_st As_b fy fc fs
  out_ptA := ptA b h A_st As_b fy fc fs
  out_ptB := ptB b h A_st As_b fy fc fs
  out_ptD := ptD b h A_st As_b fy fc fs
  out_ptC := ptC b h A_st As_b fy fc fs

/-- Written from the spec sentence of claim C2: the characteristic
plastic resistance as "the area-weighted sum of the three material
zones using the NOMINAL strengths (fy, fc, fs)"; to be compared with
the source's `Npl_rk`. -/
def Npl_rk_spec_nominal (b h A_st As_b fy fc fs : ℚ) : ℚ :=
  fy * A_st_m A_st + fs * As_b_m As_b + fc * A_c b h A_st As_b

/-- Written from the spec sentence of claim C1: along the vertex
sequence A -> B -> D -> C the moment is non-decreasing and the axial
load is non-increasing ("the axial load is monotonically non-increasing
as the moment increases"). -/
def specChainMonotone (b h A_st As_b fy fc fs : ℚ) : Prop :=
  ((ptA b h A_st As_b fy fc fs).1 ≤ (ptB b h A_st As_b fy fc fs).1 ∧
    (ptB b h A_st As_b fy fc fs).1 ≤ (ptD b h A_st As_b fy fc fs).1 ∧
    (ptD b h A_st As_b fy fc fs).1 ≤ (ptC b h A_st As_b fy fc fs).1) ∧
  ((ptB b h A_st As_b fy fc fs).2 ≤ (ptA b h A_st As_b fy fc fs).2 ∧
    (ptD b h A_st As_b fy fc fs).2 ≤ (ptB b h A_st As_b fy fc fs).2 ∧
    (ptC b h A_st As_b fy fc fs).2 ≤ (ptD b h A_st As_b fy fc fs).2)

/- ### Helper lemmas on the buckling-curve formula -/

lemma chiPhi_lower (a lam : ℝ) (ha0 : 0 ≤ a) (hl : 0 ≤ lam) :
    0.5 * (1 - 0.2 * a) ≤ chiPhi a lam := by
  unfold chiPhi
  nlinarith [mul_nonneg ha0 hl, sq_nonneg lam]

lemma chiPhi_pos (a lam : ℝ) (ha0 : 0 ≤ a) (ha : a ≤ 4 / 5) (hl : 0 ≤ lam) :
    0 < chiPhi a lam := by
  have h := chiPhi_lower a lam ha0 hl
  nlinarith

lemma lam_le_chiPhi (a lam : ℝ) (ha0 : 0 ≤ a) (ha : a ≤ 4 / 5) (hl : 0 ≤ lam) :
    lam ≤ chiPhi a lam := by
  unfold chiPhi
  rcases le_or_lt 0.2 lam with h | h
  · nlinarith [sq_nonneg (lam - 1), mul_nonneg ha0 (sub_nonneg.2 h)]
  · nlinarith [sq_nonneg (lam - 0.6),
      mul_nonneg (by linarith : (0:ℝ) ≤ 4 / 5 - a) (by linarith : (0:ℝ) ≤ 0.2 - lam)]

lemma chiArg_nonneg (a lam : ℝ) (ha0 : 0 ≤ a) (ha : a ≤ 4 / 5) (hl : 0 ≤ lam) :
    0 ≤ chiPhi a lam ^ 2 - lam ^ 2 := by
  have h1 := lam_le_chiPhi a lam ha0 ha hl
  nlinarith

lemma chiSqrt_le_phi (a lam : ℝ) (hphi : 0 ≤ chiPhi a lam) :
    Real.sqrt (chiPhi a lam ^ 2 - lam ^ 2) ≤ chiPhi a lam := by
  calc Real.sqrt (chiPhi a lam ^ 2 - lam ^ 2)
      ≤ Real.sqrt (chiPhi a lam ^ 2) := Real.sqrt_le_sqrt (by nlinarith [sq_nonneg lam])
    _ = chiPhi a lam := Real.sqrt_sq hphi

lemma chiDen_pos (a lam : ℝ) (ha0 : 0 ≤ a) (ha : a ≤ 4 / 5) (hl : 0 ≤ lam) :
    0 < chiDen a lam := by
  unfold chiDen
  have h1 := chiPhi_pos a lam ha0 ha hl
  have h2 := Real.sqrt_nonneg (chiPhi a lam ^ 2 - lam ^ 2)
  linarith

lemma chiVal_pos (a lam : ℝ) (ha0 : 0 ≤ a) (ha : a ≤ 4 / 5) (hl : 0 ≤ lam) :
    0 < chiVal a lam :=
  one_div_pos.2 (chiDen_pos a lam ha0 ha hl)

lemma chiDen_zero (a : ℝ) (ha0 : 0 ≤ a) (ha : a ≤ 4 / 5) :
    chiDen a 0 = chiPhi a 0 + chiPhi a 0 := by
  have hphi : 0 ≤ chiPhi a 0 := le_of_lt (chiPhi_pos a 0 ha0 ha le_rfl)
  unfold chiDen
  rw [show (0:ℝ) ^ 2 = 0 by norm_num, sub_zero, Real.sqrt_sq hphi]

lemma one_le_chiDen (a lam : ℝ) (ha0 : 0 ≤ a) (ha : a ≤ 4 / 5) (hl : 1 / 5 ≤ lam) :
    1 ≤ chiDen a lam := by
  have hl0 : (0:ℝ) ≤ lam := by linarith
  have hphi := chiPhi_pos a lam ha0 ha hl0
  rcases le_or_lt 1 (chiPhi a lam) with h | h
  · unfold chiDen
    have := Real.sqrt_nonneg (chiPhi a lam ^ 2 - lam ^ 2)
    linarith
  · have hsq : lam ^ 2 ≤ 2 * chiPhi a lam - 1 := by
      unfold chiPhi
      nlinarith [mul_nonneg ha0 (by linarith : (0:ℝ) ≤ lam - 0.2)]
    have key : (1 - chiPhi a lam) ^ 2 ≤ chiPhi a lam ^ 2 - lam ^ 2 := by nlinarith
    have hs := Real.le_sqrt_of_sq_le key
    unfold chiDen
    linarith

lemma chiDen_le_of_key (a l1 l2 : ℝ) (ha0 : 0 ≤ a) (h0 : 0 ≤ l1) (h12 : l1 ≤ l2)
    (harg1 : 0 ≤ chiPhi a l1 ^ 2 - l1 ^ 2)
    (key : l2 ^ 2 - l1 ^ 2 ≤ (a * (l2 - l1) + (l2 ^ 2 - l1 ^ 2)) * chiDen a l1) :
    chiDen a l1 ≤ chiDen a l2 := by
  have hs10 : 0 ≤ Real.sqrt (chiPhi a l1 ^ 2 - l1 ^ 2) := Real.sqrt_nonneg _
  have hs20 : 0 ≤ Real.sqrt (chiPhi a l2 ^ 2 - l2 ^ 2) := Real.sqrt_nonneg _
  have hs1sq : Real.sqrt (chiPhi a l1 ^ 2 - l1 ^ 2) ^ 2 = chiPhi a l1 ^ 2 - l1 ^ 2 :=
    Real.sq_sqrt harg1
  set p1 := chiPhi a l1 with hp1def
  set p2 := chiPhi a l2 with hp2def
  set s1 := Real.sqrt (p1 ^ 2 - l1 ^ 2) with hs1def
  set s2 := Real.sqrt (p2 ^ 2 - l2 ^ 2) with hs2def
  have hdphi : 2 * (p2 - p1) = a * (l2 - l1) + (l2 ^ 2 - l1 ^ 2) := by
    rw [hp1def, hp2def]; unfold chiPhi; ring
  have hD0 : 0 ≤ l2 ^ 2 - l1 ^ 2 := by
    nlinarith [mul_nonneg (sub_nonneg.2 h12) (by linarith : (0:ℝ) ≤ l1 + l2)]
  have hdphi0 : 0 ≤ p2 - p1 := by
    nlinarith [mul_nonneg ha0 (sub_nonneg.2 h12)]
  have hkey2 : l2 ^ 2 - l1 ^ 2 ≤ 2 * (p2 - p1) * (p1 + s1) := by
    have hden : chiDen a l1 = p1 + s1 := rfl
    rw [hden] at key
    have hrw : 2 * (p2 - p1) * (p1 + s1) =
        (a * (l2 - l1) + (l2 ^ 2 - l1 ^ 2)) * (p1 + s1) := by rw [hdphi]
    linarith [key, hrw.ge]
  show p1 + s1 ≤ p2 + s2
  rcases le_or_lt s1 (p2 - p1) with h | h
  · linarith
  · have hgoal : (s1 - (p2 - p1)) ^ 2 ≤ p2 ^ 2 - l2 ^ 2 := by
      nlinarith [hs1sq, hkey2]
    have := Real.le_sqrt_of_sq_le hgoal
    linarith

lemma chiDen_key_of_one_le (a l1 l2 : ℝ) (ha0 : 0 ≤ a) (h0 : 0 ≤ l1)
    (h12 : l1 ≤ l2) (hg : 1 ≤ chiDen a l1) :
    l2 ^ 2 - l1 ^ 2 ≤ (a * (l2 - l1) + (l2 ^ 2 - l1 ^ 2)) * chiDen a l1 := by
  have hD0 : 0 ≤ l2 ^ 2 - l1 ^ 2 := by
    nlinarith [mul_nonneg (sub_nonneg.2 h12) (by linarith : (0:ℝ) ≤ l1 + l2)]
  have hdelta : 0 ≤ a * (l2 - l1) := mul_nonneg ha0 (by linarith)
  nlinarith [mul_nonneg hdelta (by linarith : (0:ℝ) ≤ chiDen a l1),
    mul_nonneg hD0 (by linarith : (0:ℝ) ≤ chiDen a l1 - 1)]

set_option maxHeartbeats 1600000 in
lemma chiDen_key_small (a l1 l2 : ℝ) (ha1 : 1 / 5 ≤ a) (ha : a ≤ 4 / 5)
    (h0 : 0 ≤ l1) (h12 : l1 ≤ l2) (h2 : l2 ≤ 1 / 5) :
    l2 ^ 2 - l1 ^ 2 ≤ (a * (l2 - l1) + (l2 ^ 2 - l1 ^ 2)) * chiDen a l1 := by
  have ha0 : (0:ℝ) ≤ a := by linarith
  have h1 : l1 ≤ 1 / 5 := le_trans h12 h2
  have hphi_pos : 0 < chiPhi a l1 := chiPhi_pos a l1 ha0 ha h0
  have harg := chiArg_nonneg a l1 ha0 ha h0
  have hs1sq : Real.sqrt (chiPhi a l1 ^ 2 - l1 ^ 2) ^ 2 = chiPhi a l1 ^ 2 - l1 ^ 2 :=
    Real.sq_sqrt harg
  have hsle := chiSqrt_le_phi a l1 hphi_pos.le
  have hs10 : 0 ≤ Real.sqrt (chiPhi a l1 ^ 2 - l1 ^ 2) := Real.sqrt_nonneg _
  have hlow := chiPhi_lower a l1 ha0 h0
  have hplow : 21 / 50 ≤ chiPhi a l1 := by linarith
  have hphigh : chiPhi a l1 ≤ 13 / 25 := by
    unfold chiPhi
    nlinarith [mul_nonneg ha0 (by linarith : (0:ℝ) ≤ 1 / 5 - l1),
      mul_nonneg h0 (by linarith : (0:ℝ) ≤ 1 / 5 - l1)]
  have h2p : 2 * chiPhi a l1 - 1 = a * (l1 - 0.2) + l1 ^ 2 := by
    unfold chiPhi; ring
  set p1 := chiPhi a l1 with hp1def
  set s1 := Real.sqrt (p1 ^ 2 - l1 ^ 2) with hs1def
  have hden : chiDen a l1 = p1 + s1 := rfl
  rw [hden]
  have hp1pos : 0 < p1 := hphi_pos
  have hkey : p1 ^ 2 - l1 ^ 2 ≤ s1 * p1 := by
    nlinarith [mul_nonneg hs10 (sub_nonneg.2 hsle), hs1sq]
  have hT1 : a * p1 * (1 / 5 - l1) ≤ a * (13 / 25) * (1 / 5) := by
    nlinarith [mul_nonneg ha0 h0,
      mul_nonneg ha0 (by linarith : (0:ℝ) ≤ 1 / 5 - l1),
      mul_nonneg (mul_nonneg ha0 (by linarith : (0:ℝ) ≤ 1 / 5 - l1))
        (by linarith : (0:ℝ) ≤ 13 / 25 - p1)]
  have hT1nn : 0 ≤ a * p1 * (1 / 5 - l1) :=
    mul_nonneg (mul_nonneg ha0 hp1pos.le) (by linarith)
  have hT2 : (l1 + l2) * (a * p1 * (1 / 5 - l1)) ≤ 2 / 5 * (a * (13 / 25) * (1 / 5)) := by
    nlinarith [mul_nonneg (by linarith : (0:ℝ) ≤ l1 + l2) (sub_nonneg.2 hT1),
      mul_nonneg (by linarith : (0:ℝ) ≤ 2 / 5 - (l1 + l2))
        (le_trans hT1nn hT1)]
  have hT3 : (l1 + l2) * (l1 ^ 2 * (1 - p1)) ≤ 2 / 5 * (1 / 25 * (29 / 50)) := by
    have hl1sq : l1 ^ 2 ≤ 1 / 25 := by
      nlinarith [mul_nonneg h0 (by linarith : (0:ℝ) ≤ 1 / 5 - l1)]
    have hop : 0 ≤ 1 - p1 := by linarith
    have hx : 0 ≤ l1 ^ 2 * (1 - p1) := mul_nonneg (sq_nonneg _) hop
    have hy : l1 ^ 2 * (1 - p1) ≤ 1 / 25 * (29 / 50) := by
      nlinarith [mul_nonneg (sq_nonneg l1) (by linarith : (0:ℝ) ≤ 29 / 50 - (1 - p1)),
        mul_nonneg (by linarith : (0:ℝ) ≤ 1 / 25 - l1 ^ 2) (by linarith : (0:ℝ) ≤ 29 / 50)]
    nlinarith [mul_nonneg (by linarith : (0:ℝ) ≤ l1 + l2) (sub_nonneg.2 hy),
      mul_nonneg (by linarith : (0:ℝ) ≤ 2 / 5 - (l1 + l2)) (le_trans hx hy)]
  have hT4 : 782 / 2500 ≤ 2 * p1 ^ 2 - l1 ^ 2 := by
    nlinarith [hplow, mul_nonneg h0 (by linarith : (0:ℝ) ≤ 1 / 5 - l1)]
  have hbracket : 0 ≤ a * (2 * p1 ^ 2 - l1 ^ 2) +
      (l1 + l2) * (2 * p1 ^ 2 - l1 ^ 2 - p1) := by
    have hC : 2 * p1 ^ 2 - l1 ^ 2 - p1 =
        -(a * p1 * (1 / 5 - l1)) - l1 ^ 2 * (1 - p1) := by
      linear_combination p1 * h2p
    rw [hC]
    nlinarith [hT2, hT3, mul_nonneg ha0 (sub_nonneg.2 hT4)]
  have hsum : 0 ≤ a * (l2 - l1) + (l2 ^ 2 - l1 ^ 2) := by
    have := mul_nonneg (sub_nonneg.2 h12) (by linarith : (0:ℝ) ≤ l1 + l2)
    nlinarith [mul_nonneg ha0 (sub_nonneg.2 h12)]
  have hdiff : 0 ≤ (p1 + s1) * p1 - (2 * p1 ^ 2 - l1 ^ 2) := by nlinarith [hkey]
  have main : (l2 ^ 2 - l1 ^ 2) * p1 ≤
      (a * (l2 - l1) + (l2 ^ 2 - l1 ^ 2)) * (p1 + s1) * p1 := by
    nlinarith [mul_nonneg hsum hdiff,
      mul_nonneg (sub_nonneg.2 h12) hbracket]
  exact le_of_mul_le_mul_right main hp1pos

lemma chiDen_mono (a l1 l2 : ℝ) (ha1 : 1 / 5 ≤ a) (ha : a ≤ 4 / 5)
    (h0 : 0 ≤ l1) (h12 : l1 ≤ l2) : chiDen a l1 ≤ chiDen a l2 := by
  have ha0 : (0:ℝ) ≤ a := by linarith
  rcases le_or_lt (1 / 5) l1 with hc | hc
  · exact chiDen_le_of_key a l1 l2 ha0 h0 h12 (chiArg_nonneg a l1 ha0 ha h0)
      (chiDen_key_of_one_le a l1 l2 ha0 h0 h12 (one_le_chiDen a l1 ha0 ha hc))
  · rcases le_or_lt l2 (1 / 5) with hc2 | hc2
    · exact chiDen_le_of_key a l1 l2 ha0 h0 h12 (chiArg_nonneg a l1 ha0 ha h0)
        (chiDen_key_small a l1 l2 ha1 ha h0 h12 hc2)
    · have step1 : chiDen a l1 ≤ chiDen a (1 / 5) :=
        chiDen_le_of_key a l1 (1 / 5) ha0 h0 (by linarith)
          (chiArg_nonneg a l1 ha0 ha h0)
          (chiDen_key_small a l1 (1 / 5) ha1 ha h0 (by linarith) le_rfl)
      have step2 : chiDen a (1 / 5) ≤ chiDen a l2 :=
        chiDen_le_of_key a (1 / 5) l2 ha0 (by norm_num) (by linarith)
          (chiArg_nonneg a (1 / 5) ha0 ha (by norm_num))
          (chiDen_key_of_one_le a (1 / 5) l2 ha0 (by norm_num) (by linarith)
            (one_le_chiDen a (1 / 5) ha0 ha le_rfl))
      linarith

lemma chiVal_antitone (a l1 l2 : ℝ) (ha1 : 1 / 5 ≤ a) (ha : a ≤ 4 / 5)
    (h0 : 0 ≤ l1) (h12 : l1 ≤ l2) : chiVal a l2 ≤ chiVal a l1 :=
  one_div_le_one_div_of_le (chiDen_pos a l1 (by linarith) ha h0)
    (chiDen_mono a l1 l2 ha1 ha h0 h12)

lemma lines_eq_none (c : Char) (hc : ¬(c = 'a' ∨ c = 'b' ∨ c = 'c' ∨ c = 'd')) :
    lines c = none := by
  push_neg at hc
  obtain ⟨h1, h2, h3, h4⟩ := hc
  unfold lines
  split
  · simp_all
  · simp_all
  · simp_all
  · simp_all
  · rfl

lemma lines_cases (c : Char) (a l1 : ℝ) (h : lines c = some (a, l1)) :
    (a = 0.21 ∨ a = 0.34 ∨ a = 0.49 ∨ a = 0.76) ∧ l1 = 1.0 := by
  unfold lines at h
  split at h
  · simp only [Option.some.injEq, Prod.mk.injEq] at h
    exact ⟨Or.inl h.1.symm, h.2.symm⟩
  · simp only [Option.some.injEq, Prod.mk.injEq] at h
    exact ⟨Or.inr (Or.inl h.1.symm), h.2.symm⟩
  · simp only [Option.some.injEq, Prod.mk.injEq] at h
    exact ⟨Or.inr (Or.inr (Or.inl h.1.symm)), h.2.symm⟩
  · simp only [Option.some.injEq, Prod.mk.injEq] at h
    exact ⟨Or.inr (Or.inr (Or.inr h.1.symm)), h.2.symm⟩
  · exact Option.noConfusion h

lemma chi_coeff_eq_chiVal (lam : ℝ) (c : Char) (a : ℝ)
    (h : lines c = some (a, 1.0)) :
    chi_coeff lam c = Except.ok (chiVal a lam) := by
  unfold chi_coeff
  rw [h]
  norm_num

lemma chiVal_b1_bounds :
    0.5966 < chiVal 0.34 ((1:ℝ) / 1.0) ∧ chiVal 0.34 ((1:ℝ) / 1.0) < 0.5974 := by
  rw [show ((1:ℝ) / 1.0) = 1 by norm_num]
  have hphi : chiPhi 0.34 1 = 1.136 := by unfold chiPhi; norm_num
  have hden_eq : chiDen 0.34 1 = 1.136 + Real.sqrt 0.290496 := by
    unfold chiDen
    rw [hphi, show ((1.136:ℝ) ^ 2 - (1:ℝ) ^ 2) = 0.290496 by norm_num]
  have hs_lo : (0.538:ℝ) < Real.sqrt 0.290496 :=
    (Real.lt_sqrt (by norm_num)).2 (by norm_num)
  have hs_hi : Real.sqrt 0.290496 < 0.54 :=
    (Real.sqrt_lt' (by norm_num)).2 (by norm_num)
  have hden_lo : (1.674:ℝ) < chiDen 0.34 1 := by rw [hden_eq]; linarith
  have hden_hi : chiDen 0.34 1 < 1.676 := by rw [hden_eq]; linarith
  have hpos : (0:ℝ) < chiDen 0.34 1 := by linarith
  constructor
  · have h1 : (1:ℝ) / 1.676 < 1 / chiDen 0.34 1 :=
      one_div_lt_one_div_of_lt hpos hden_hi
    have h2 : (0.5966:ℝ) < 1 / 1.676 := by norm_num
    unfold chiVal
    linarith
  · have h1 : (1:ℝ) / chiDen 0.34 1 < 1 / 1.674 :=
      one_div_lt_one_div_of_lt (by norm_num) hden_lo
    have h2 : (1:ℝ) / 1.674 < 0.5974 := by norm_num
    unfold chiVal
    linarith

/- ### Claim theorems: buckling-curve evaluator -/

/-- C4 (counterexample): the claim that the reduction factor always lies
in (0,1] and never exceeds 1 is false: at zero slenderness on curve c
the code returns `1/0.902 > 1`. -/
theorem chi_zero_exceeds_one_cex :
    chi_coeff 0 'c' = Except.ok (chiVal 0.49 ((0:ℝ) / 1.0)) ∧
    1 < chiVal 0.49 ((0:ℝ) / 1.0) := by
  constructor
  · rfl
  · rw [show ((0:ℝ) / 1.0) = 0 by norm_num]
    have hz := chiDen_zero 0.49 (by norm_num) (by norm_num)
    unfold chiVal
    rw [hz, show chiPhi 0.49 0 + chiPhi 0.49 0 = 0.902 by unfold chiPhi; norm_num]
    norm_num

/-- C4 (amended): for slenderness >= 0 and a curve of the table, the
reduction factor is strictly positive, is maximal at zero slenderness,
and at zero slenderness equals exactly `1/(phi+phi)` with
`phi = 0.5*(1-0.2*alpha)`; that maximum is `1/(1-0.2*alpha)`, which
exceeds 1 (so the interval (0,1] of the claim is wrong). -/
theorem chi_reduction_factor_range (lam : ℝ) (hl : 0 ≤ lam) (c : Char)
    (a l1 : ℝ) (hline : lines c = some (a, l1)) (r r0 : ℝ)
    (hr : chi_coeff lam c = Except.ok r) (hr0 : chi_coeff 0 c = Except.ok r0) :
    0 < r ∧ r ≤ r0 ∧ r0 = 1 / (chiPhi a 0 + chiPhi a 0) ∧ 1 < r0 := by
  obtain ⟨haval, hl1⟩ := lines_cases c a l1 hline
  subst hl1
  have ha1 : 1 / 5 ≤ a := by rcases haval with h | h | h | h <;> rw [h] <;> norm_num
  have ha2 : a ≤ 4 / 5 := by rcases haval with h | h | h | h <;> rw [h] <;> norm_num
  have ha0 : (0:ℝ) ≤ a := by linarith
  rw [chi_coeff_eq_chiVal lam c a hline] at hr
  rw [chi_coeff_eq_chiVal 0 c a hline] at hr0
  injection hr with k
  injection hr0 with k0
  subst k; subst k0
  refine ⟨chiVal_pos a lam ha0 ha2 hl, ?_, ?_, ?_⟩
  · exact chiVal_antitone a 0 lam ha1 ha2 le_rfl hl
  · unfold chiVal
    rw [chiDen_zero a ha0 ha2]
  · unfold chiVal
    rw [chiDen_zero a ha0 ha2,
      show chiPhi a 0 + chiPhi a 0 = 1 - 0.2 * a by unfold chiPhi; ring]
    have h1 : (0:ℝ) < 1 - 0.2 * a := by linarith
    have h2 : 1 - 0.2 * a < 1 := by linarith
    exact one_lt_one_div h1 h2

/-- C4 (witness): the amended theorem applied at slenderness 1, curve c. -/
theorem chi_reduction_factor_range_witness :
    0 < chiVal 0.49 ((1:ℝ) / 1.0) ∧
    chiVal 0.49 ((1:ℝ) / 1.0) ≤ chiVal 0.49 ((0:ℝ) / 1.0) ∧
    chiVal 0.49 ((0:ℝ) / 1.0) = 1 / (chiPhi 0.49 0 + chiPhi 0.49 0) ∧
    1 < chiVal 0.49 ((0:ℝ) / 1.0) :=
  chi_reduction_factor_range 1 (by norm_num) 'c' 0.49 1.0 rfl _ _ rfl rfl

/-- C5: at `lambda_value = -1` on curve d the radicand
`phi**2 - bar_lambda**2` of line 30 is negative, yet `chi_coeff` has no
domain check and still produces a value - no
`ReductionFactorDomainError` exists in the code (Python's `**0.5` on
the negative base yields a complex number, modelled here by
`Real.sqrt`). -/
theorem chi_sqrt_domain_violation_unguarded :
    chiPhi 0.76 ((-1:ℝ) / 1.0) ^ 2 - ((-1:ℝ) / 1.0) ^ 2 < 0 ∧
    chi_coeff (-1) 'd' = Except.ok (chiVal 0.76 ((-1:ℝ) / 1.0)) := by
  constructor
  · rw [show ((-1:ℝ) / 1.0) = -1 by norm_num]
    unfold chiPhi
    norm_num
  · rfl

/-- C6 (counterexample): for curve b at relative slenderness 1 the code
returns `1/(1.136+sqrt(1.136^2-1))`, which is below 0.6 and more than
0.06 away from the 0.6673 stated by the claim. -/
theorem chi_curve_b_not_0_6673_cex :
    chi_coeff 1 'b' = Except.ok (chiVal 0.34 ((1:ℝ) / 1.0)) ∧
    chiVal 0.34 ((1:ℝ) / 1.0) < 0.6 ∧
    0.06 < |0.6673 - chiVal 0.34 ((1:ℝ) / 1.0)| := by
  obtain ⟨hlo, hhi⟩ := chiVal_b1_bounds
  refine ⟨rfl, by linarith, ?_⟩
  rw [abs_of_pos (by linarith)]
  linarith

/-- C6 (amended): for curve b (alpha = 0.34) with relative slenderness
1, the code computes `phi = 0.5*(1+0.34*0.8+1) = 1.136` and returns
`chi = 1/(1.136+sqrt(1.136^2-1))`, which is approximately 0.5970 (not
0.6673). -/
theorem chi_curve_b_reference_value :
    chiPhi 0.34 ((1:ℝ) / 1.0) = 1.136 ∧
    chi_coeff 1 'b' = Except.ok (chiVal 0.34 ((1:ℝ) / 1.0)) ∧
    chiVal 0.34 ((1:ℝ) / 1.0) = 1 / (1.136 + Real.sqrt (1.136 ^ 2 - 1)) ∧
    |chiVal 0.34 ((1:ℝ) / 1.0) - 0.597| < 0.001 := by
  obtain ⟨hlo, hhi⟩ := chiVal_b1_bounds
  refine ⟨?_, rfl, ?_, ?_⟩
  · rw [show ((1:ℝ) / 1.0) = 1 by norm_num]
    unfold chiPhi; norm_num
  · rw [show ((1:ℝ) / 1.0) = 1 by norm_num]
    unfold chiVal chiDen
    rw [show chiPhi 0.34 1 = 1.136 by unfold chiPhi; norm_num]
    norm_num
  · rw [abs_lt]
    constructor <;> linarith

/-- C7: for every curve of the table the reduction factor is
non-increasing in the slenderness over [0, 3]: if
`0 <= s1 <= s2 <= 3` then `chi_coeff(s2, curve) <= chi_coeff(s1, curve)`.
(The proof does not even need the upper bound 3.) -/
theorem chi_coeff_antitone_on_curves (c : Char)
    (hc : c = 'a' ∨ c = 'b' ∨ c = 'c' ∨ c = 'd') (s1 s2 : ℝ)
    (h0 : 0 ≤ s1) (h12 : s1 ≤ s2) (h3 : s2 ≤ 3) (r1 r2 : ℝ)
    (hr1 : chi_coeff s1 c = Except.ok r1)
    (hr2 : chi_coeff s2 c = Except.ok r2) : r2 ≤ r1 := by
  rcases hc with h | h | h | h <;> subst h
  · rw [chi_coeff_eq_chiVal s1 'a' 0.21 rfl] at hr1
    rw [chi_coeff_eq_chiVal s2 'a' 0.21 rfl] at hr2
    injection hr1 with k1; injection hr2 with k2
    rw [← k1, ← k2]
    exact chiVal_antitone 0.21 s1 s2 (by norm_num) (by norm_num) h0 h12
  · rw [chi_coeff_eq_chiVal s1 'b' 0.34 rfl] at hr1
    rw [chi_coeff_eq_chiVal s2 'b' 0.34 rfl] at hr2
    injection hr1 with k1; injection hr2 with k2
    rw [← k1, ← k2]
    exact chiVal_antitone 0.34 s1 s2 (by norm_num) (by norm_num) h0 h12
  · rw [chi_coeff_eq_chiVal s1 'c' 0.49 rfl] at hr1
    rw [chi_coeff_eq_chiVal s2 'c' 0.49 rfl] at hr2
    injection hr1 with k1; injection hr2 with k2
    rw [← k1, ← k2]
    exact chiVal_antitone 0.49 s1 s2 (by norm_num) (by norm_num) h0 h12
  · rw [chi_coeff_eq_chiVal s1 'd' 0.76 rfl] at hr1
    rw [chi_coeff_eq_chiVal s2 'd' 0.76 rfl] at hr2
    injection hr1 with k1; injection hr2 with k2
    rw [← k1, ← k2]
    exact chiVal_antitone 0.76 s1 s2 (by norm_num) (by norm_num) h0 h12

/-- C7 (witness): the monotonicity theorem applied on curve b at
slenderness 1 and 2. -/
theorem chi_coeff_antitone_on_curves_witness :
    chiVal 0.34 ((2:ℝ) / 1.0) ≤ chiVal 0.34 ((1:ℝ) / 1.0) :=
  chi_coeff_antitone_on_curves 'b' (Or.inr (Or.inl rfl)) 1 2 (by norm_num)
    (by norm_num) (by norm_num) _ _ rfl rfl

/-- C8: `chi_coeff` raises `ValueError` (the `InvalidCurveError` of the
spec) exactly for curve symbols outside a, b, c, d; for the four table
symbols no such error is raised, whatever the slenderness. -/
theorem chi_invalid_curve_error (lam : ℝ) (c : Char) :
    (¬(c = 'a' ∨ c = 'b' ∨ c = 'c' ∨ c = 'd') →
      chi_coeff lam c = Except.error ChiError.invalidCurve) ∧
    ((c = 'a' ∨ c = 'b' ∨ c = 'c' ∨ c = 'd') →
      chi_coeff lam c ≠ Except.error ChiError.invalidCurve) := by
  constructor
  · intro hc
    unfold chi_coeff
    rw [lines_eq_none c hc]
  · intro hc
    rcases hc with h | h | h | h <;> subst h
    · rw [chi_coeff_eq_chiVal lam 'a' 0.21 rfl]; exact fun k => Except.noConfusion k
    · rw [chi_coeff_eq_chiVal lam 'b' 0.34 rfl]; exact fun k => Except.noConfusion k
    · rw [chi_coeff_eq_chiVal lam 'c' 0.49 rfl]; exact fun k => Except.noConfusion k
    · rw [chi_coeff_eq_chiVal lam 'd' 0.76 rfl]; exact fun k => Except.noConfusion k

/-- C8 (witness): the error theorem applied at slenderness 0.5 to the
invalid symbol e and to the valid symbol a. -/
theorem chi_invalid_curve_error_witness :
    chi_coeff 0.5 'e' = Except.error ChiError.invalidCurve ∧
    chi_coeff 0.5 'a' ≠ Except.error ChiError.invalidCurve :=
  ⟨(chi_invalid_curve_error 0.5 'e').1 (by decide),
   (chi_invalid_curve_error 0.5 'a').2 (Or.inl rfl)⟩

/-- C10: for slenderness >= 0 and a curve of the table, the radicand
`phi**2 - bar_lambda**2` is non-negative (indeed
`bar_lambda <= phi`), so `chi_coeff` returns a well-defined positive
real and the square-root domain violation is unreachable. -/
theorem chi_sqrt_domain_safe (lam : ℝ) (hl : 0 ≤ lam) (c : Char)
    (a l1 : ℝ) (hline : lines c = some (a, l1)) :
    lam / l1 ≤ chiPhi a (lam / l1) ∧
    0 ≤ chiPhi a (lam / l1) ^ 2 - (lam / l1) ^ 2 ∧
    chi_coeff lam c = Except.ok (chiVal a (lam / l1)) ∧
    0 < chiVal a (lam / l1) := by
  obtain ⟨haval, hl1⟩ := lines_cases c a l1 hline
  subst hl1
  have ha1 : 1 / 5 ≤ a := by rcases haval with h | h | h | h <;> rw [h] <;> norm_num
  have ha2 : a ≤ 4 / 5 := by rcases haval with h | h | h | h <;> rw [h] <;> norm_num
  have ha0 : (0:ℝ) ≤ a := by linarith
  rw [show lam / (1.0:ℝ) = lam by norm_num]
  refine ⟨lam_le_chiPhi a lam ha0 ha2 hl, chiArg_nonneg a lam ha0 ha2 hl, ?_,
    chiVal_pos a lam ha0 ha2 hl⟩
  exact chi_coeff_eq_chiVal lam c a hline

/-- C10 (witness): the domain-safety theorem applied at slenderness 1,
curve c. -/
theorem chi_sqrt_domain_safe_witness :
    (1:ℝ) / 1.0 ≤ chiPhi 0.49 ((1:ℝ) / 1.0) ∧
    0 ≤ chiPhi 0.49 ((1:ℝ) / 1.0) ^ 2 - ((1:ℝ) / 1.0) ^ 2 ∧
    chi_coeff 1 'c' = Except.ok (chiVal 0.49 ((1:ℝ) / 1.0)) ∧
    0 < chiVal 0.49 ((1:ℝ) / 1.0) :=
  chi_sqrt_domain_safe 1 (by norm_num) 'c' 0.49 1.0 rfl

/- ### Claim theorems: composite column designer -/

/-- C2 (counterexample): at the 300x300 HE scenario with 12 cm2 of
reinforcement, the code's `Npl_rk` differs from the area-weighted sum
of the NOMINAL strengths, because line 85 uses `fsd` (the design
reinforcement strength) instead of `fs`. -/
theorem Npl_rk_not_nominal_cex :
    Npl_rk 300 300 149.8 12 355 30 500 ≠
      Npl_rk_spec_nominal 300 300 149.8 12 355 30 500 := by
  norm_num [Npl_rk, Npl_rk_spec_nominal, fsd, gamma_B, A_st_m, As_b_m, A_c,
    b_c, h_c]

/-- C2 (amended): the design strengths are `fyd = fy/1.0`,
`fcd = 0.85*fc/1.5` (safety factor 1.5 applied to `0.85*fc`) and
`fsd = fs/1.15`; `Npl_rd` is the area-weighted sum of the design
strengths, while `Npl_rk` uses the nominal `fy` and `fc` but the DESIGN
reinforcement strength `fs/1.15`, not the nominal `fs`. -/
theorem plastic_resistance_formulas (b h A_st As_b fy fc fs : ℚ) :
    fyd fy = fy / 1.0 ∧ fcd fc = 0.85 * fc / 1.5 ∧ fsd fs = fs / 1.15 ∧
    Npl_rk b h A_st As_b fy fc fs =
      fy * (A_st / 1e4) + fs / 1.15 * (As_b / 1e4) + fc * A_c b h A_st As_b ∧
    Npl_rd b h A_st As_b fy fc fs =
      fy / 1.0 * (A_st / 1e4) + fs / 1.15 * (As_b / 1e4) +
        0.85 * fc / 1.5 * A_c b h A_st As_b :=
  ⟨rfl, rfl, rfl, rfl, rfl⟩

/-- C3: the subtractive geometry computations have no guard at all: for
b = h = 100 mm with A_st = 200 cm2, As_b = 10 cm2 the concrete area
`A_c` is negative (-0.011 m2) and the computation silently continues,
producing a negative axial load at vertex B; for I_st = 25000 cm4 the
concrete inertia `I_c` is negative as well.  No
`NegativeConcreteAreaError` / `NegativeConcreteInertiaError` is ever
raised. -/
theorem negative_geometry_unguarded :
    A_c 100 100 200 10 < 0 ∧
    N_b_rd 100 100 200 10 30 < 0 ∧
    (ptB 100 100 200 10 355 30 500).2 < 0 ∧
    I_c 100 100 25000 0 < 0 := by
  refine ⟨?_, ?_, ?_, ?_⟩ <;>
    norm_num [A_c, N_b_rd, ptB, I_c, b_c, h_c, A_st_m, As_b_m, fcd, gamma_C,
      I_s, I_b]

/-- C9: every output of `composite_HE_ec4` (the printed `N_cr`,
`Npl_rd`, `M_max_rd`, `M_b_rd` and the four plotted vertices) is
independent of the buckling reduction factor: removing the
`chi_coeff` call (lines 89-90) leaves every output unchanged. -/
theorem composite_outputs_independent_of_chi
    (L b h A_st I_st As_b I_by fy fc fs Ec Es : ℚ) :
    (composite_HE_ec4 L b h A_st I_st As_b I_by fy fc fs Ec Es).toCompositeOutputs =
      composite_HE_ec4_without_chi L b h A_st I_st As_b I_by fy fc fs Ec Es :=
  rfl

/-- C1 (counterexample): at the 300x300 HE scenario of section 8
(b = h = 300, A_st = 149.8 cm2, I_st = 19340 cm4, As_b = 12 cm2,
fy = 355, fc = 30, fs = 500) the vertex sequence A -> B -> D -> C is
NOT "axial load non-increasing as the moment increases": the moment
strictly decreases from D back to C (M_c_rd = M_b_rd < M_max_rd). -/
theorem interaction_chain_not_monotone_cex :
    ¬ specChainMonotone 300 300 149.8 12 355 30 500 := by
  intro hmono
  have hDC := hmono.1.2.2
  have hlt : (ptC 300 300 149.8 12 355 30 500).1 <
      (ptD 300 300 149.8 12 355 30 500).1 := by
    norm_num [ptC, ptD, M_c_rd, M_b_rd, M_max_rd, N_d_rd, h_n, A_c, W_plc,
      W_pla, W_pls, b_c, h_c, t_w, fyd, fcd, fsd, gamma_M, gamma_C, gamma_B,
      A_st_m, As_b_m]
  linarith

/-- C1 (amended): for nonnegative strengths and steel areas,
nonnegative concrete area, width of at least 10 mm and nonnegative
vertex-B moment (all satisfied by the 300x300 HE scenario): vertex A
has zero moment and axial load `Npl_rd`, vertex C has zero axial load,
B and C have equal moments, D carries `M_max_rd`; the axial load is
non-increasing along the whole sequence A -> B -> D -> C, and the
moment is non-decreasing along A -> B -> D - but from D to C the
moment goes back down to B's moment, so the original "axial load
non-increasing as the moment increases" holds only up to D. -/
theorem interaction_vertices (b h A_st As_b fy fc fs : ℚ)
    (hfy : 0 ≤ fy) (hfc : 0 ≤ fc) (hfs : 0 ≤ fs)
    (hAst : 0 ≤ A_st) (hAsb : 0 ≤ As_b)
    (hAc : 0 ≤ A_c b h A_st As_b) (hb : 10 ≤ b)
    (hMb : 0 ≤ M_b_rd b h A_st As_b fy fc fs) :
    (ptA b h A_st As_b fy fc fs).1 = 0 ∧
    (ptA b h A_st As_b fy fc fs).2 = Npl_rd b h A_st As_b fy fc fs * 1e3 ∧
    (ptC b h A_st As_b fy fc fs).2 = 0 ∧
    (ptB b h A_st As_b fy fc fs).1 = (ptC b h A_st As_b fy fc fs).1 ∧
    (ptD b h A_st As_b fy fc fs).1 = M_max_rd b h fy fc fs * 1e3 ∧
    (ptA b h A_st As_b fy fc fs).1 ≤ (ptB b h A_st As_b fy fc fs).1 ∧
    (ptB b h A_st As_b fy fc fs).1 ≤ (ptD b h A_st As_b fy fc fs).1 ∧
    (ptB b h A_st As_b fy fc fs).2 ≤ (ptA b h A_st As_b fy fc fs).2 ∧
    (ptD b h A_st As_b fy fc fs).2 ≤ (ptB b h A_st As_b fy fc fs).2 ∧
    (ptC b h A_st As_b fy fc fs).2 ≤ (ptD b h A_st As_b fy fc fs).2 := by
  have hfsd : 0 ≤ fsd fs := by
    unfold fsd gamma_B
    exact div_nonneg hfs (by norm_num)
  have hfcd : 0 ≤ fcd fc := by
    unfold fcd gamma_C
    exact div_nonneg (mul_nonneg (by norm_num) hfc) (by norm_num)
  have hfyd : 0 ≤ fyd fy := by
    unfold fyd gamma_M
    exact div_nonneg hfy (by norm_num)
  have hH : 0 ≤ h_n b h A_st As_b fy fc ^ 2 := sq_nonneg _
  have hbc : 0 ≤ b_c b - t_w := by
    rw [show b_c b - t_w = (b - 10) / 1000 by unfold b_c t_w; ring]
    exact div_nonneg (by linarith) (by norm_num)
  have hX : 0 ≤ 2 * h_n b h A_st As_b fy fc ^ 2 * t_w / 6 * fsd fs := by
    refine mul_nonneg (div_nonneg (mul_nonneg (mul_nonneg ?_ hH) ?_)
      (by norm_num)) hfsd
    · norm_num
    · unfold t_w; norm_num
  have hY : 0 ≤ 2 * h_n b h A_st As_b fy fc ^ 2 * (b_c b - t_w) / 6 * fcd fc :=
    mul_nonneg (div_nonneg (mul_nonneg (mul_nonneg (by norm_num) hH) hbc)
      (by norm_num)) hfcd
  have hMbMmax : M_b_rd b h A_st As_b fy fc fs ≤ M_max_rd b h fy fc fs := by
    unfold M_b_rd
    linarith
  have hsteel : 0 ≤ fyd fy * A_st_m A_st + fsd fs * As_b_m As_b := by
    have h1 : 0 ≤ A_st_m A_st := by
      unfold A_st_m; exact div_nonneg hAst (by norm_num)
    have h2 : 0 ≤ As_b_m As_b := by
      unfold As_b_m; exact div_nonneg hAsb (by norm_num)
    exact add_nonneg (mul_nonneg hfyd h1) (mul_nonneg hfsd h2)
  have hAcfcd : 0 ≤ A_c b h A_st As_b * fcd fc := mul_nonneg hAc hfcd
  refine ⟨rfl, rfl, rfl, rfl, rfl, ?_, ?_, ?_, ?_, ?_⟩
  · show (0:ℚ) ≤ M_b_rd b h A_st As_b fy fc fs * 1e3
    exact mul_nonneg hMb (by norm_num)
  · show M_b_rd b h A_st As_b fy fc fs * 1e3 ≤ M_max_rd b h fy fc fs * 1e3
    nlinarith [hMbMmax]
  · show N_b_rd b h A_st As_b fc * 1e3 ≤ Npl_rd b h A_st As_b fy fc fs * 1e3
    unfold N_b_rd Npl_rd
    nlinarith [hsteel]
  · show N_d_rd b h A_st As_b fc * 1e3 ≤ N_b_rd b h A_st As_b fc * 1e3
    unfold N_d_rd N_b_rd
    nlinarith [hAcfcd]
  · show (0:ℚ) ≤ N_d_rd b h A_st As_b fc * 1e3
    unfold N_d_rd
    nlinarith [hAcfcd]

/-- C1 (witness): the amended vertex theorem applied to the 300x300 HE
scenario of section 8. -/
theorem interaction_vertices_witness :
    (ptA 300 300 149.8 12 355 30 500).1 = 0 ∧
    (ptA 300 300 149.8 12 355 30 500).2 = Npl_rd 300 300 149.8 12 355 30 500 * 1e3 ∧
    (ptC 300 300 149.8 12 355 30 500).2 = 0 ∧
    (ptB 300 300 149.8 12 355 30 500).1 = (ptC 300 300 149.8 12 355 30 500).1 ∧
    (ptD 300 300 149.8 12 355 30 500).1 = M_max_rd 300 300 355 30 500 * 1e3 ∧
    (ptA 300 300 149.8 12 355 30 500).1 ≤ (ptB 300 300 149.8 12 355 30 500).1 ∧
    (ptB 300 300 149.8 12 355 30 500).1 ≤ (ptD 300 300 149.8 12 355 30 500).1 ∧
    (ptB 300 300 149.8 12 355 30 500).2 ≤ (ptA 300 300 149.8 12 355 30 500).2 ∧
    (ptD 300 300 149.8 12 355 30 500).2 ≤ (ptB 300 300 149.8 12 355 30 500).2 ∧
    (ptC 300 300 149.8 12 355 30 500).2 ≤ (ptD 300 300 149.8 12 355 30 500).2 :=
  interaction_vertices 300 300 149.8 12 355 30 500 (by norm_num) (by norm_num)
    (by norm_num) (by norm_num) (by norm_num)
    (by norm_num [A_c, b_c, h_c, A_st_m, As_b_m]) (by norm_num)
    (by norm_num [M_b_rd, M_max_rd, h_n, A_c, W_plc, W_pla, W_pls, b_c, h_c,
      t_w, fyd, fcd, fsd, gamma_M, gamma_C, gamma_B, A_st_m, As_b_m])
